import Mathlib

/-!
Shallow embedding of the bakery inventory application's data layer
(`src/lib/firestore.js`) together with the stock-handling page logic
(`src/app/work-orders/page.js`, `src/app/sales/page.js`,
`src/app/purchasing/page.js`, the demand-plan, special-order and weekly-plan
pages).  Firestore collections are modelled as total maps from document id to
field values (a missing document reads as the default used by the code's
`?? 0` lookups) or as lists of documents, JavaScript numbers as rationals,
and each `writeBatch` as a pure state transition -- Firestore applies a write
batch atomically, so one Lean function per batch is the faithful picture.
`increment(n)` is a server-side relative delta, so stock updates are modelled
pointwise.  The weekly-generation batch computation `Math.ceil(qty / yield)`
has no zero guard in the source, so the JavaScript number semantics of
division by zero is modelled explicitly by the `JsNum` type.
-/

namespace Bakery

/-- One entry of a work order's `ingredientsRequired` snapshot (and, with
`totalRequired` recomputed, one entry of a production record's
`ingredientsConsumed` list): per-batch `quantity` plus the `totalRequired`
captured at creation time from `batchesOrdered`. -/
structure IngredientLine where
  ingredientId : String
  ingredientName : String
  quantity : ℚ
  unit : String
  totalRequired : ℚ
deriving DecidableEq, Repr

/-- The fields of a `workOrders` document that the production engine reads. -/
structure WorkOrder where
  id : String
  recipeId : String
  recipeName : String
  finishedGoodId : String
  finishedGoodName : String
  orderType : String
  batchesOrdered : ℚ
  batchesActual : ℚ
  totalYield : ℚ
  recipeYield : ℚ
  status : String
  ingredientsRequired : List IngredientLine
deriving DecidableEq, Repr

/-- A `productionRecords` document, as written by `executeWorkOrder`. -/
structure ProductionRecord where
  workOrderId : String
  recipeId : String
  recipeName : String
  finishedGoodId : String
  finishedGoodName : String
  batchesProduced : ℚ
  totalYield : ℚ
  ingredientsConsumed : List IngredientLine
  producedBy : String
deriving DecidableEq, Repr

/-- State touched by work-order execution: the `ingredients` and
`finishedGoods` collections (currentStock per document id), the work-order
status and completion-timestamp fields, and the append-only
`productionRecords` collection. -/
structure ProdDb where
  ingredientStock : String → ℚ
  finishedGoodStock : String → ℚ
  workOrderStatus : String → String
  workOrderCompletedAt : String → Option Nat
  productionRecords : List ProductionRecord

/-- The ingredient-deduction loop of `executeWorkOrder`
(src/lib/firestore.js lines 543-549): each snapshot line's stock receives
`increment(-(ing.quantity * workOrder.batchesActual))`. -/
def decrementIngredients (batchesActual : ℚ) (lines : List IngredientLine)
    (stock : String → ℚ) : String → ℚ :=
  lines.foldl
    (fun st ing => fun k =>
      if k = ing.ingredientId then st k - ing.quantity * batchesActual else st k)
    stock

/-- The production record `executeWorkOrder` stages (lines 573-593):
`ingredientsConsumed` re-maps the snapshot with
`totalRequired = ing.quantity * batchesActual`. -/
def productionRecordOf (wo : WorkOrder) (producedBy : String) : ProductionRecord :=
  { workOrderId := wo.id
    recipeId := wo.recipeId
    recipeName := wo.recipeName
    finishedGoodId := wo.finishedGoodId
    finishedGoodName := wo.finishedGoodName
    batchesProduced := wo.batchesActual
    totalYield := wo.totalYield
    ingredientsConsumed := wo.ingredientsRequired.map fun ing =>
      { ing with totalRequired := ing.quantity * wo.batchesActual }
    producedBy := producedBy }

/-- Model of `executeWorkOrder` (src/lib/firestore.js lines 530-601): the whole
function is a single `writeBatch`, modelled as one state transition.
Step 1 decrements every snapshot ingredient by `quantity * batchesActual`,
step 2 increments the finished good by `totalYield` unless
`orderType === "MTO"`, step 3 marks the order complete with a completion
timestamp, step 4 appends one production record. -/
def executeWorkOrder (wo : WorkOrder) (producedBy : String) (now : Nat)
    (db : ProdDb) : ProdDb :=
  let db1 : ProdDb :=
    { db with ingredientStock :=
        decrementIngredients wo.batchesActual wo.ingredientsRequired db.ingredientStock }
  let db2 : ProdDb :=
    if wo.orderType ≠ "MTO" then
      { db1 with finishedGoodStock := fun k =>
          if k = wo.finishedGoodId then db1.finishedGoodStock k + wo.totalYield
          else db1.finishedGoodStock k }
    else db1
  let db3 : ProdDb :=
    { db2 with
      workOrderStatus := fun k => if k = wo.id then "complete" else db2.workOrderStatus k
      workOrderCompletedAt := fun k =>
        if k = wo.id then some now else db2.workOrderCompletedAt k }
  { db3 with productionRecords := db3.productionRecords ++ [productionRecordOf wo producedBy] }

theorem decrementIngredients_not_mem (b : ℚ) (lines : List IngredientLine)
    (stock : String → ℚ) (k : String)
    (hk : k ∉ lines.map (·.ingredientId)) :
    decrementIngredients b lines stock k = stock k := by
  induction lines generalizing stock with
  | nil => rfl
  | cons l ls ih =>
    simp only [List.map_cons, List.mem_cons, not_or] at hk
    simp only [decrementIngredients, List.foldl_cons] at *
    rw [ih _ hk.2]
    simp [hk.1]

theorem decrementIngredients_mem (b : ℚ) (lines : List IngredientLine)
    (stock : String → ℚ)
    (hnodup : (lines.map (·.ingredientId)).Nodup) :
    ∀ ing ∈ lines,
      decrementIngredients b lines stock ing.ingredientId =
        stock ing.ingredientId - ing.quantity * b := by
  induction lines generalizing stock with
  | nil => intro ing h; cases h
  | cons l ls ih =>
    simp only [List.map_cons, List.nodup_cons] at hnodup
    intro ing hing
    rcases List.mem_cons.mp hing with rfl | hmem
    · have h1 := decrementIngredients_not_mem b ls
        (fun k => if k = ing.ingredientId then stock k - ing.quantity * b else stock k)
        ing.ingredientId hnodup.1
      simp only [decrementIngredients, List.foldl_cons]
      simp only [decrementIngredients] at h1
      rw [h1]
      simp
    · have hne : ing.ingredientId ≠ l.ingredientId := by
        intro h
        exact hnodup.1 (h ▸ List.mem_map_of_mem (·.ingredientId) hmem)
      have h2 := ih
        (fun k => if k = l.ingredientId then stock k - l.quantity * b else stock k)
        hnodup.2 ing hmem
      simp only [decrementIngredients, List.foldl_cons]
      simp only [decrementIngredients] at h2
      rw [h2]
      simp [hne]

theorem executeWorkOrder_ingredientStock (wo : WorkOrder) (producedBy : String)
    (now : Nat) (db : ProdDb) :
    (executeWorkOrder wo producedBy now db).ingredientStock =
      decrementIngredients wo.batchesActual wo.ingredientsRequired db.ingredientStock := by
  by_cases h : wo.orderType = "MTO" <;> simp [executeWorkOrder, h]

/-- C1.  Completing a work order commits all effects as one atomic unit
(one `writeBatch`, here one state transition): every snapshot ingredient is
decremented by exactly `quantityPerBatch * batchesActual` (independent of the
stale `totalRequired` snapshot), the finished good is incremented by
`totalYield` iff `orderType ≠ "MTO"` (unchanged for MTO), the order's status
becomes `complete` with a completion timestamp, and exactly one production
record capturing the consumed quantities and the yield is appended. -/
theorem executeWorkOrder_atomic_effects (wo : WorkOrder) (producedBy : String)
    (now : Nat) (db : ProdDb)
    (hnodup : (wo.ingredientsRequired.map (·.ingredientId)).Nodup) :
    (∀ ing ∈ wo.ingredientsRequired,
        (executeWorkOrder wo producedBy now db).ingredientStock ing.ingredientId =
          db.ingredientStock ing.ingredientId - ing.quantity * wo.batchesActual) ∧
    (executeWorkOrder wo producedBy now db).finishedGoodStock wo.finishedGoodId =
      db.finishedGoodStock wo.finishedGoodId +
        (if wo.orderType ≠ "MTO" then wo.totalYield else 0) ∧
    (executeWorkOrder wo producedBy now db).workOrderStatus wo.id = "complete" ∧
    (executeWorkOrder wo producedBy now db).workOrderCompletedAt wo.id = some now ∧
    (executeWorkOrder wo producedBy now db).productionRecords =
      db.productionRecords ++ [productionRecordOf wo producedBy] ∧
    ∀ c ∈ (productionRecordOf wo producedBy).ingredientsConsumed,
      c.totalRequired = c.quantity * wo.batchesActual := by
  refine ⟨?_, ?_, ?_, ?_, ?_, ?_⟩
  · intro ing hing
    rw [executeWorkOrder_ingredientStock]
    exact decrementIngredients_mem _ _ _ hnodup ing hing
  · by_cases h : wo.orderType = "MTO" <;> simp [executeWorkOrder, h]
  · by_cases h : wo.orderType = "MTO" <;> simp [executeWorkOrder, h]
  · by_cases h : wo.orderType = "MTO" <;> simp [executeWorkOrder, h]
  · by_cases h : wo.orderType = "MTO" <;> simp [executeWorkOrder, h]
  · intro c hc
    simp only [productionRecordOf, List.mem_map] at hc
    obtain ⟨ing, _, rfl⟩ := hc
    rfl

/-- Sample work order used to instantiate the hypotheses of the C1 theorem:
two distinct snapshot ingredients, `batchesActual = 3` (edited after creation,
so the stale `totalRequired` of 10 would be wrong), an MTS order. -/
def sampleWorkOrder : WorkOrder :=
  { id := "wo1"
    recipeId := "r1"
    recipeName := "Sourdough"
    finishedGoodId := "fg1"
    finishedGoodName := "Sourdough Loaf"
    orderType := "MTS"
    batchesOrdered := 2
    batchesActual := 3
    totalYield := 60
    recipeYield := 20
    status := "inProgress"
    ingredientsRequired :=
      [{ ingredientId := "flour", ingredientName := "Flour", quantity := 5,
         unit := "lbs", totalRequired := 10 },
       { ingredientId := "salt", ingredientName := "Salt", quantity := 1,
         unit := "oz", totalRequired := 2 }] }

/-- Sample production database for the witnesses. -/
def sampleProdDb : ProdDb :=
  { ingredientStock := fun k => if k = "flour" then 50 else if k = "salt" then 10 else 0
    finishedGoodStock := fun _ => 5
    workOrderStatus := fun _ => "inProgress"
    workOrderCompletedAt := fun _ => none
    productionRecords := [] }

theorem executeWorkOrder_atomic_effects_witness :
    ((sampleWorkOrder.ingredientsRequired.map (·.ingredientId)).Nodup) ∧
    (executeWorkOrder sampleWorkOrder "baker@example.com" 7 sampleProdDb).ingredientStock "flour" = 35 ∧
    (executeWorkOrder sampleWorkOrder "baker@example.com" 7 sampleProdDb).finishedGoodStock "fg1" = 65 ∧
    (executeWorkOrder sampleWorkOrder "baker@example.com" 7 sampleProdDb).workOrderStatus "wo1" = "complete" := by
  have hnodup : (sampleWorkOrder.ingredientsRequired.map (·.ingredientId)).Nodup := by
    decide
  have h := executeWorkOrder_atomic_effects sampleWorkOrder "baker@example.com" 7
    sampleProdDb hnodup
  refine ⟨hnodup, ?_, ?_, h.2.2.1⟩
  · simp [executeWorkOrder, decrementIngredients, sampleWorkOrder, sampleProdDb]
    norm_num
  · simp [executeWorkOrder, decrementIngredients, sampleWorkOrder, sampleProdDb]
    norm_num

/-- One row of `handleComplete`'s `stockCheck`
(src/app/work-orders/page.js lines 387-392): the snapshot line spread
together with the freshly fetched `currentStock`, the authoritative
`actualRequired = ing.quantity * wo.batchesActual`, and the `sufficient`
flag `currentStock >= actualRequired`. -/
structure StockCheckLine where
  ingredientId : String
  ingredientName : String
  quantity : ℚ
  unit : String
  totalRequired : ℚ
  currentStock : ℚ
  actualRequired : ℚ
  sufficient : Bool
deriving DecidableEq, Repr

/-- The check row built for one snapshot ingredient from the fresh stock. -/
def stockCheckLineOf (wo : WorkOrder) (fresh : String → ℚ) (ing : IngredientLine) :
    StockCheckLine :=
  { ingredientId := ing.ingredientId
    ingredientName := ing.ingredientName
    quantity := ing.quantity
    unit := ing.unit
    totalRequired := ing.totalRequired
    currentStock := fresh ing.ingredientId
    actualRequired := ing.quantity * wo.batchesActual
    sufficient := decide (ing.quantity * wo.batchesActual ≤ fresh ing.ingredientId) }

/-- The `stockCheck` array of `handleComplete` (page lines 387-392). -/
def stockCheckOf (wo : WorkOrder) (fresh : String → ℚ) : List StockCheckLine :=
  wo.ingredientsRequired.map (stockCheckLineOf wo fresh)

/-- Outcome of the completion flow on the work-orders page. -/
inductive CompleteOutcome where
  | insufficientStock (short : List StockCheckLine)
  | notConfirmed
  | completed
deriving DecidableEq, Repr

/-- Model of `handleComplete` (src/app/work-orders/page.js lines 365-451), the
successful-fetch path: step 1 re-fetches live ingredient stock (reading the
live `ingredients` collection, never the page's cached copy), step 2 builds
`stockCheck` from `ing.quantity * wo.batchesActual`, step 3 aborts with the
itemized `shortIngredients` list and no writes when any line is short,
step 4 asks for confirmation, step 5 issues the atomic batch
(`executeWorkOrder`). -/
def handleComplete (wo : WorkOrder) (confirmed : Bool) (producedBy : String)
    (now : Nat) (db : ProdDb) : CompleteOutcome × ProdDb :=
  let freshStock := db.ingredientStock
  let stockCheck := stockCheckOf wo freshStock
  let shortIngredients := stockCheck.filter fun ic => !ic.sufficient
  if shortIngredients.length > 0 then (.insufficientStock shortIngredients, db)
  else if !confirmed then (.notConfirmed, db)
  else (.completed, executeWorkOrder wo producedBy now db)

theorem mem_shortList_iff (wo : WorkOrder) (fresh : String → ℚ) (l : StockCheckLine) :
    l ∈ (stockCheckOf wo fresh).filter (fun ic => !ic.sufficient) ↔
      ∃ ing ∈ wo.ingredientsRequired,
        fresh ing.ingredientId < ing.quantity * wo.batchesActual ∧
        l = stockCheckLineOf wo fresh ing := by
  simp only [List.mem_filter, stockCheckOf, List.mem_map]
  constructor
  · rintro ⟨⟨ing, hing, rfl⟩, hflag⟩
    refine ⟨ing, hing, ?_, rfl⟩
    simpa [stockCheckLineOf, not_le] using hflag
  · rintro ⟨ing, hing, hlt, rfl⟩
    exact ⟨⟨ing, hing, rfl⟩, by simpa [stockCheckLineOf, not_le] using hlt⟩

theorem shortList_eq_nil_iff (wo : WorkOrder) (fresh : String → ℚ) :
    (stockCheckOf wo fresh).filter (fun ic => !ic.sufficient) = [] ↔
      ∀ ing ∈ wo.ingredientsRequired,
        ing.quantity * wo.batchesActual ≤ fresh ing.ingredientId := by
  rw [List.filter_eq_nil_iff]
  constructor
  · intro h ing hing
    have := h (stockCheckLineOf wo fresh ing) (List.mem_map_of_mem _ hing)
    simpa [stockCheckLineOf] using this
  · intro h l hl
    obtain ⟨ing, hing, rfl⟩ := List.mem_map.mp hl
    simpa [stockCheckLineOf] using h ing hing

/-- C2.  The completion flow re-fetches live stock, and: if any snapshot
ingredient's live stock is below `quantity * batchesActual` the flow aborts
with no writes and reports exactly the short ingredients, each with its live
stock and its required amount; the atomic batch is issued only when every
ingredient's live stock covers its requirement; any non-committed outcome
leaves the database untouched. -/
theorem handleComplete_blocks_on_shortage (wo : WorkOrder) (confirmed : Bool)
    (producedBy : String) (now : Nat) (db : ProdDb) :
    ((∃ ing ∈ wo.ingredientsRequired,
        db.ingredientStock ing.ingredientId < ing.quantity * wo.batchesActual) →
      (handleComplete wo confirmed producedBy now db).2 = db ∧
      (handleComplete wo confirmed producedBy now db).1 =
        CompleteOutcome.insufficientStock
          ((stockCheckOf wo db.ingredientStock).filter fun ic => !ic.sufficient)) ∧
    (∀ l, l ∈ (stockCheckOf wo db.ingredientStock).filter (fun ic => !ic.sufficient) ↔
      ∃ ing ∈ wo.ingredientsRequired,
        db.ingredientStock ing.ingredientId < ing.quantity * wo.batchesActual ∧
        l = stockCheckLineOf wo db.ingredientStock ing) ∧
    ((handleComplete wo confirmed producedBy now db).1 = CompleteOutcome.completed →
      (∀ ing ∈ wo.ingredientsRequired,
        ing.quantity * wo.batchesActual ≤ db.ingredientStock ing.ingredientId) ∧
      (handleComplete wo confirmed producedBy now db).2 =
        executeWorkOrder wo producedBy now db) ∧
    ((handleComplete wo confirmed producedBy now db).1 ≠ CompleteOutcome.completed →
      (handleComplete wo confirmed producedBy now db).2 = db) := by
  by_cases hshort :
      (stockCheckOf wo db.ingredientStock).filter (fun ic => !ic.sufficient) = []
  · have hcov := (shortList_eq_nil_iff wo db.ingredientStock).mp hshort
    refine ⟨?_, fun l => mem_shortList_iff wo db.ingredientStock l, ?_, ?_⟩
    · rintro ⟨ing, hing, hlt⟩
      exact absurd (hcov ing hing) (not_le.mpr hlt)
    · intro hc
      refine ⟨hcov, ?_⟩
      cases confirmed
      · exfalso
        simp [handleComplete, hshort] at hc
      · simp [handleComplete, hshort]
    · intro hne
      cases confirmed
      · simp [handleComplete, hshort]
      · exact absurd (by simp [handleComplete, hshort]) hne
  · have hlen : 0 <
        ((stockCheckOf wo db.ingredientStock).filter (fun ic => !ic.sufficient)).length :=
      List.length_pos.mpr hshort
    refine ⟨?_, fun l => mem_shortList_iff wo db.ingredientStock l, ?_, ?_⟩
    · intro _
      constructor <;> simp [handleComplete, hlen]
    · intro hc
      exact absurd hc (by simp [handleComplete, hlen])
    · intro _
      simp [handleComplete, hlen]

/-- Witness for the C2 theorem: using the sample order (needs 15 flour and
3 salt) against a store holding only 5 flour, the flow aborts, the database
is untouched, and the report names flour with live stock 5 and requirement
15; against the well-stocked sample store, a confirmed completion commits the
batch. -/
def shortProdDb : ProdDb :=
  { ingredientStock := fun k => if k = "flour" then 5 else if k = "salt" then 10 else 0
    finishedGoodStock := fun _ => 5
    workOrderStatus := fun _ => "inProgress"
    workOrderCompletedAt := fun _ => none
    productionRecords := [] }

theorem handleComplete_blocks_on_shortage_witness :
    (∃ ing ∈ sampleWorkOrder.ingredientsRequired,
      shortProdDb.ingredientStock ing.ingredientId <
        ing.quantity * sampleWorkOrder.batchesActual) ∧
    (handleComplete sampleWorkOrder true "baker@example.com" 7 shortProdDb).2 =
      shortProdDb ∧
    (handleComplete sampleWorkOrder true "baker@example.com" 7 sampleProdDb).1 =
      CompleteOutcome.completed := by
  have hex : ∃ ing ∈ sampleWorkOrder.ingredientsRequired,
      shortProdDb.ingredientStock ing.ingredientId <
        ing.quantity * sampleWorkOrder.batchesActual := by
    refine ⟨sampleWorkOrder.ingredientsRequired.head (by simp [sampleWorkOrder]), ?_, ?_⟩
    · simp [sampleWorkOrder]
    · norm_num [sampleWorkOrder, shortProdDb]
  have h := handleComplete_blocks_on_shortage sampleWorkOrder true "baker@example.com" 7
    shortProdDb
  refine ⟨hex, (h.1 hex).1, ?_⟩
  have hcov : ∀ ing ∈ sampleWorkOrder.ingredientsRequired,
      ing.quantity * sampleWorkOrder.batchesActual ≤
        sampleProdDb.ingredientStock ing.ingredientId := by
    intro ing hing
    simp only [sampleWorkOrder, List.mem_cons, List.not_mem_nil, or_false] at hing
    rcases hing with rfl | rfl
    · simp [sampleProdDb, sampleWorkOrder] <;> norm_num
    · simp [sampleProdDb, sampleWorkOrder] <;> norm_num
  have hnil := (shortList_eq_nil_iff sampleWorkOrder sampleProdDb.ingredientStock).mpr hcov
  simp [handleComplete, hnil]

/-- A `finishedGoods` document as the sales page loads it. -/
structure FinishedGoodDoc where
  id : String
  name : String
  currentStock : ℚ
  price : Option ℚ
deriving DecidableEq, Repr

/-- A `salesRecords` document (append-only). -/
structure SaleRecord where
  finishedGoodId : String
  finishedGoodName : String
  quantitySold : ℚ
  pricePerUnit : ℚ
  totalRevenue : ℚ
  notes : String
  soldBy : String
deriving DecidableEq, Repr

/-- Live state touched by sale recording: the `finishedGoods` stock and the
append-only `salesRecords` collection. -/
structure SalesDb where
  finishedGoodStock : String → ℚ
  salesRecords : List SaleRecord

/-- Model of `addSaleRecord` (src/lib/firestore.js lines 750-775): one `writeBatch`
appending the sale record and applying `increment(-quantitySold)` to the
finished good. -/
def addSaleRecord (data : SaleRecord) (db : SalesDb) : SalesDb :=
  { finishedGoodStock := fun k =>
      if k = data.finishedGoodId then db.finishedGoodStock k - data.quantitySold
      else db.finishedGoodStock k
    salesRecords := db.salesRecords ++ [data] }

/-- The sales form state; `none` models an empty input field and `getD 0`
models `parseFloat(x) || 0`. -/
structure SalesForm where
  finishedGoodId : String
  quantitySold : Option ℚ
  pricePerUnit : Option ℚ
  notes : String
deriving DecidableEq, Repr

/-- Model of `handleSubmit` on the sales page (src/app/sales/page.js lines 118-150)
together with the derived values feeding it (lines 68-80): `selectedGood`,
`qty`, `price` and `isOversold` are computed from the page's most recently
loaded `finishedGoods` state (`pageGoods` — fetched at mount and after each
prior sale), not re-fetched at submit time; the guard
`!formData.finishedGoodId || !formData.quantitySold || isOversold` returns
without writing, otherwise `addSaleRecord` commits against the live store. -/
def salesHandleSubmit (pageGoods : List FinishedGoodDoc) (form : SalesForm)
    (soldBy : String) (live : SalesDb) : Bool × SalesDb :=
  let selectedGood := pageGoods.find? fun g => decide (g.id = form.finishedGoodId)
  let qty : ℚ := form.quantitySold.getD 0
  let price : ℚ := form.pricePerUnit.getD 0
  let remainingAfterSale :=
    (match selectedGood with | some g => g.currentStock | none => 0) - qty
  let isOversold : Bool := decide (0 < qty) && decide (remainingAfterSale < 0)
  if form.finishedGoodId = "" ∨ form.quantitySold = none ∨ isOversold = true then
    (false, live)
  else
    match selectedGood with
    | none => (false, live)
    | some g =>
      (true, addSaleRecord
        { finishedGoodId := form.finishedGoodId
          finishedGoodName := g.name
          quantitySold := qty
          pricePerUnit := price
          totalRevenue := qty * price
          notes := form.notes
          soldBy := soldBy } live)

/-- Page snapshot for the C5 counterexample: the page loaded the good with
stock 10. -/
def staleSalesGoods : List FinishedGoodDoc :=
  [{ id := "fg1", name := "Sourdough Loaf", currentStock := 10, price := some 6 }]

/-- Form for the C5 counterexample: sell 5 units. -/
def oversoldSalesForm : SalesForm :=
  { finishedGoodId := "fg1", quantitySold := some 5, pricePerUnit := some 6, notes := "" }

/-- Live store for the C5 counterexample: stock has meanwhile dropped to 2. -/
def staleLiveSalesDb : SalesDb :=
  { finishedGoodStock := fun k => if k = "fg1" then 2 else 0
    salesRecords := [] }

/-- C5 counterexample.  The sales page validates only against its loaded
snapshot and never re-fetches stock immediately before the commit: with the
snapshot showing 10 in stock but the live store holding 2, a sale of 5 is
committed — `quantitySold` exceeds the finished good's live `currentStock`
at commit time, the oversold sale is recorded, and the live stock goes
negative. -/
theorem salesHandleSubmit_no_refetch_counterexample :
    (salesHandleSubmit staleSalesGoods oversoldSalesForm "clerk@example.com"
        staleLiveSalesDb).1 = true ∧
    staleLiveSalesDb.finishedGoodStock "fg1" < 5 ∧
    (salesHandleSubmit staleSalesGoods oversoldSalesForm "clerk@example.com"
        staleLiveSalesDb).2.finishedGoodStock "fg1" = -3 ∧
    (salesHandleSubmit staleSalesGoods oversoldSalesForm "clerk@example.com"
        staleLiveSalesDb).2.salesRecords.length = 1 := by
  refine ⟨?_, ?_, ?_, ?_⟩ <;>
    simp [salesHandleSubmit, addSaleRecord, staleSalesGoods, oversoldSalesForm,
      staleLiveSalesDb, List.find?] <;> norm_num

/-- C5 as amended.  The oversell guard holds against the page's last-fetched
snapshot: when the form's quantity exceeds the snapshot stock of the selected
good (with a positive quantity), nothing is written; and whenever the submit
does commit, the quantity is at most the snapshot stock, exactly one sale
record is appended, and the good's stock receives a single atomic decrement
by the quantity sold. -/
theorem salesHandleSubmit_snapshot_guard (pageGoods : List FinishedGoodDoc)
    (form : SalesForm) (soldBy : String) (live : SalesDb) (g : FinishedGoodDoc)
    (hfound : pageGoods.find? (fun g => decide (g.id = form.finishedGoodId)) = some g) :
    ((0 < form.quantitySold.getD 0 ∧ g.currentStock < form.quantitySold.getD 0) →
      salesHandleSubmit pageGoods form soldBy live = (false, live)) ∧
    ((0 < form.quantitySold.getD 0 ∧
        (salesHandleSubmit pageGoods form soldBy live).1 = true) →
      form.quantitySold.getD 0 ≤ g.currentStock ∧
      (salesHandleSubmit pageGoods form soldBy live).2.salesRecords =
        live.salesRecords ++
          [{ finishedGoodId := form.finishedGoodId
             finishedGoodName := g.name
             quantitySold := form.quantitySold.getD 0
             pricePerUnit := form.pricePerUnit.getD 0
             totalRevenue := form.quantitySold.getD 0 * form.pricePerUnit.getD 0
             notes := form.notes
             soldBy := soldBy }] ∧
      (salesHandleSubmit pageGoods form soldBy live).2.finishedGoodStock
          form.finishedGoodId =
        live.finishedGoodStock form.finishedGoodId - form.quantitySold.getD 0) := by
  constructor
  · rintro ⟨hqty, hover⟩
    have hrem : g.currentStock - form.quantitySold.getD 0 < 0 := by linarith
    simp [salesHandleSubmit, hfound, hqty, hrem]
  · rintro ⟨hqty, hcommit⟩
    by_cases hover : g.currentStock - form.quantitySold.getD 0 < 0
    · exfalso
      simp [salesHandleSubmit, hfound, hqty, hover] at hcommit
    · have hle : form.quantitySold.getD 0 ≤ g.currentStock := by
        push_neg at hover
        linarith
      have hne : form.quantitySold ≠ none := by
        intro h
        rw [h] at hqty
        simp at hqty
      have hid : form.finishedGoodId ≠ "" := by
        intro h
        simp [salesHandleSubmit, h] at hcommit
      refine ⟨hle, ?_, ?_⟩ <;>
        simp [salesHandleSubmit, hfound, hid, hne, hover, addSaleRecord]

/-- Fresh live store matching the page snapshot, for the C5 witness. -/
def freshLiveSalesDb : SalesDb :=
  { finishedGoodStock := fun k => if k = "fg1" then 10 else 0
    salesRecords := [] }

theorem salesHandleSubmit_snapshot_guard_witness :
    (staleSalesGoods.find?
        (fun g => decide (g.id = oversoldSalesForm.finishedGoodId)) =
      some { id := "fg1", name := "Sourdough Loaf", currentStock := 10, price := some 6 }) ∧
    (0 : ℚ) < oversoldSalesForm.quantitySold.getD 0 ∧
    (salesHandleSubmit staleSalesGoods oversoldSalesForm "clerk@example.com"
        freshLiveSalesDb).1 = true ∧
    oversoldSalesForm.quantitySold.getD 0 ≤ (10 : ℚ) ∧
    (salesHandleSubmit staleSalesGoods oversoldSalesForm "clerk@example.com"
        freshLiveSalesDb).2.finishedGoodStock "fg1" = 5 := by
  have hfound : staleSalesGoods.find?
      (fun g => decide (g.id = oversoldSalesForm.finishedGoodId)) =
      some { id := "fg1", name := "Sourdough Loaf", currentStock := 10, price := some 6 } := by
    simp [staleSalesGoods, oversoldSalesForm, List.find?]
  have hqty : (0 : ℚ) < oversoldSalesForm.quantitySold.getD 0 := by
    norm_num [oversoldSalesForm]
  have hsub : (salesHandleSubmit staleSalesGoods oversoldSalesForm "clerk@example.com"
      freshLiveSalesDb).1 = true := by
    simp [salesHandleSubmit, staleSalesGoods, oversoldSalesForm, freshLiveSalesDb,
      List.find?] <;> norm_num
  have h := (salesHandleSubmit_snapshot_guard staleSalesGoods oversoldSalesForm
    "clerk@example.com" freshLiveSalesDb
    { id := "fg1", name := "Sourdough Loaf", currentStock := 10, price := some 6 }
    hfound).2 ⟨hqty, hsub⟩
  refine ⟨hfound, hqty, hsub, h.1, ?_⟩
  have h3 := h.2.2
  simp [oversoldSalesForm, freshLiveSalesDb] at h3 ⊢
  rw [h3]
  norm_num

/-- One line of a purchase order's `items` array (src/lib/firestore.js
lines 821-823). -/
structure PoItem where
  ingredientId : String
  ingredientName : String
  unit : String
  currentStock : ℚ
  safetyStock : ℚ
  totalRequired : ℚ
  netRequired : ℚ
  orderedQuantity : ℚ
  receivedQuantity : ℚ
deriving DecidableEq, Repr

/-- State touched by goods receipt: the `ingredients` stock and, per purchase
order id, the status, items array and receivedBy fields. -/
structure PoDb where
  ingredientStock : String → ℚ
  poStatus : String → String
  poItems : String → List PoItem
  poReceivedBy : String → String

/-- The receipt loop of `receivePurchaseOrder` (lines 894-902): every line
with `receivedQuantity > 0` gets `increment(receivedQuantity)`; lines with
`receivedQuantity === 0` are skipped. -/
def receiveIncrements (updatedItems : List PoItem) (stock : String → ℚ) :
    String → ℚ :=
  updatedItems.foldl
    (fun st item =>
      if item.receivedQuantity > 0 then
        fun k => if k = item.ingredientId then st k + item.receivedQuantity else st k
      else st)
    stock

/-- Model of `receivePurchaseOrder` (src/lib/firestore.js lines 888-924): one
`writeBatch` incrementing stock per received line and updating the purchase
order with the new items array, `receivedBy`, and status `"complete"` when
every line has `receivedQuantity >= orderedQuantity`, else `"partial"`. -/
def receivePurchaseOrder (poId : String) (updatedItems : List PoItem)
    (currentUserEmail : String) (db : PoDb) : PoDb :=
  let isComplete := updatedItems.all fun item =>
    decide (item.orderedQuantity ≤ item.receivedQuantity)
  { ingredientStock := receiveIncrements updatedItems db.ingredientStock
    poStatus := fun k =>
      if k = poId then (if isComplete then "complete" else "partial") else db.poStatus k
    poItems := fun k => if k = poId then updatedItems else db.poItems k
    poReceivedBy := fun k => if k = poId then currentUserEmail else db.poReceivedBy k }

theorem receiveIncrements_not_mem (items : List PoItem) (stock : String → ℚ)
    (k : String) (hk : k ∉ items.map (·.ingredientId)) :
    receiveIncrements items stock k = stock k := by
  induction items generalizing stock with
  | nil => rfl
  | cons l ls ih =>
    simp only [List.map_cons, List.mem_cons, not_or] at hk
    simp only [receiveIncrements, List.foldl_cons] at *
    by_cases hl : l.receivedQuantity > 0
    · rw [if_pos hl]
      rw [ih _ hk.2]
      simp [hk.1]
    · rw [if_neg hl]
      exact ih _ hk.2

theorem receiveIncrements_mem (items : List PoItem) (stock : String → ℚ)
    (hnodup : (items.map (·.ingredientId)).Nodup) :
    ∀ item ∈ items,
      receiveIncrements items stock item.ingredientId =
        stock item.ingredientId +
          (if item.receivedQuantity > 0 then item.receivedQuantity else 0) := by
  induction items generalizing stock with
  | nil => intro item h; cases h
  | cons l ls ih =>
    simp only [List.map_cons, List.nodup_cons] at hnodup
    intro item hitem
    rcases List.mem_cons.mp hitem with rfl | hmem
    · by_cases hl : item.receivedQuantity > 0
      · have h1 := receiveIncrements_not_mem ls
          (fun k => if k = item.ingredientId then stock k + item.receivedQuantity else stock k)
          item.ingredientId hnodup.1
        simp only [receiveIncrements, List.foldl_cons, if_pos hl]
        simp only [receiveIncrements] at h1
        rw [h1]
        simp [hl]
      · have h1 := receiveIncrements_not_mem ls stock item.ingredientId hnodup.1
        simp only [receiveIncrements, List.foldl_cons, if_neg hl]
        simp only [receiveIncrements] at h1
        rw [h1]
        simp [hl]
    · have hne : item.ingredientId ≠ l.ingredientId := by
        intro h
        exact hnodup.1 (h ▸ List.mem_map_of_mem (·.ingredientId) hmem)
      by_cases hl : l.receivedQuantity > 0
      · have h2 := ih
          (fun k => if k = l.ingredientId then stock k + l.receivedQuantity else stock k)
          hnodup.2 item hmem
        simp only [receiveIncrements, List.foldl_cons, if_pos hl]
        simp only [receiveIncrements] at h2
        rw [h2]
        simp [hne]
      · have h2 := ih stock hnodup.2 item hmem
        simp only [receiveIncrements, List.foldl_cons, if_neg hl]
        simp only [receiveIncrements] at h2
        rw [h2]

/-- C9.  Goods receipt atomically increments each line's ingredient stock by
its `receivedQuantity` when positive (zero-received lines change no stock),
and in the same commit sets the purchase order's status to `complete` iff
every line's `receivedQuantity ≥ orderedQuantity`, and to `partial`
otherwise. -/
theorem receivePurchaseOrder_effects (poId : String) (updatedItems : List PoItem)
    (currentUserEmail : String) (db : PoDb)
    (hnodup : (updatedItems.map (·.ingredientId)).Nodup) :
    (∀ item ∈ updatedItems, 0 < item.receivedQuantity →
      (receivePurchaseOrder poId updatedItems currentUserEmail db).ingredientStock
          item.ingredientId =
        db.ingredientStock item.ingredientId + item.receivedQuantity) ∧
    (∀ item ∈ updatedItems, item.receivedQuantity = 0 →
      (receivePurchaseOrder poId updatedItems currentUserEmail db).ingredientStock
          item.ingredientId =
        db.ingredientStock item.ingredientId) ∧
    ((receivePurchaseOrder poId updatedItems currentUserEmail db).poStatus poId =
        "complete" ↔
      ∀ item ∈ updatedItems, item.orderedQuantity ≤ item.receivedQuantity) ∧
    ((receivePurchaseOrder poId updatedItems currentUserEmail db).poStatus poId =
        "complete" ∨
      (receivePurchaseOrder poId updatedItems currentUserEmail db).poStatus poId =
        "partial") ∧
    (receivePurchaseOrder poId updatedItems currentUserEmail db).poItems poId =
      updatedItems := by
  refine ⟨?_, ?_, ?_, ?_, ?_⟩
  · intro item hitem hpos
    show receiveIncrements updatedItems db.ingredientStock item.ingredientId = _
    rw [receiveIncrements_mem updatedItems db.ingredientStock hnodup item hitem]
    simp [hpos]
  · intro item hitem hzero
    show receiveIncrements updatedItems db.ingredientStock item.ingredientId = _
    rw [receiveIncrements_mem updatedItems db.ingredientStock hnodup item hitem]
    simp [hzero]
  · by_cases hc : ∀ item ∈ updatedItems, item.orderedQuantity ≤ item.receivedQuantity
    · simp [receivePurchaseOrder, List.all_eq_true, hc]
    · have : ¬ (updatedItems.all fun item =>
          decide (item.orderedQuantity ≤ item.receivedQuantity)) = true := by
        simpa [List.all_eq_true] using hc
      simp only [receivePurchaseOrder, if_pos rfl]
      rw [if_neg this]
      simp [hc]
  · by_cases hall : (updatedItems.all fun item =>
        decide (item.orderedQuantity ≤ item.receivedQuantity)) = true
    · exact Or.inl (by simp [receivePurchaseOrder, hall])
    · exact Or.inr (by simp [receivePurchaseOrder, hall])
  · simp [receivePurchaseOrder]

/-- Items for the C9 witness: ordered {A:10, B:5}, received {A:10, B:3}
(spec scenario 5) — status must be `partial`, stock up by 10 and 3. -/
def receiptItems : List PoItem :=
  [{ ingredientId := "ingA", ingredientName := "Flour", unit := "lbs",
     currentStock := 4, safetyStock := 2, totalRequired := 12, netRequired := 10,
     orderedQuantity := 10, receivedQuantity := 10 },
   { ingredientId := "ingB", ingredientName := "Butter", unit := "lbs",
     currentStock := 1, safetyStock := 1, totalRequired := 5, netRequired := 5,
     orderedQuantity := 5, receivedQuantity := 3 }]

/-- Purchase-order database for the C9 and C10 witnesses. -/
def samplePoDb : PoDb :=
  { ingredientStock := fun k => if k = "ingA" then 4 else if k = "ingB" then 1 else 0
    poStatus := fun _ => "sent"
    poItems := fun _ => []
    poReceivedBy := fun _ => "" }

theorem receivePurchaseOrder_effects_witness :
    ((receiptItems.map (·.ingredientId)).Nodup) ∧
    (receivePurchaseOrder "po1" receiptItems "owner@example.com"
        samplePoDb).ingredientStock "ingA" = 14 ∧
    (receivePurchaseOrder "po1" receiptItems "owner@example.com"
        samplePoDb).ingredientStock "ingB" = 4 ∧
    (receivePurchaseOrder "po1" receiptItems "owner@example.com"
        samplePoDb).poStatus "po1" = "partial" := by
  have hnodup : (receiptItems.map (·.ingredientId)).Nodup := by decide
  have h := receivePurchaseOrder_effects "po1" receiptItems "owner@example.com"
    samplePoDb hnodup
  refine ⟨hnodup, ?_, ?_, ?_⟩
  · have := h.1 (receiptItems.head (by simp [receiptItems]))
      (by simp [receiptItems]) (by norm_num [receiptItems])
    simp [receiptItems, samplePoDb] at this ⊢
    rw [this]
    norm_num
  · simp [receivePurchaseOrder, receiveIncrements, receiptItems, samplePoDb]
    norm_num
  · rcases h.2.2.2.1 with hc | hp
    · exfalso
      have := (h.2.2.1).mp hc
      have hB := this
        { ingredientId := "ingB", ingredientName := "Butter", unit := "lbs",
          currentStock := 1, safetyStock := 1, totalRequired := 5, netRequired := 5,
          orderedQuantity := 5, receivedQuantity := 3 }
        (by simp [receiptItems])
      norm_num at hB
    · exact hp

/-- A `purchaseOrders` document (only the fields deletion touches). -/
structure PurchaseOrderDoc where
  id : String
  status : String
deriving DecidableEq, Repr

/-- Model of `deletePurchaseOrder` (src/lib/firestore.js lines 863-874): throws when
`status !== "draft"` with a message naming the status, otherwise hard-deletes
the document.  The pair returns the outcome and the `purchaseOrders`
collection afterwards; a throw happens before any delete, so the collection
is returned unchanged. -/
def deletePurchaseOrder (id status : String) (pos : List PurchaseOrderDoc) :
    Except String Unit × List PurchaseOrderDoc :=
  if status ≠ "draft" then
    (Except.error ("Purchase order " ++ id ++ " cannot be deleted because its status is \""
        ++ status ++ "\". Only draft orders may be deleted."), pos)
  else
    (Except.ok (), pos.filter fun po => !decide (po.id = id))

/-- The purchasing page's delete handler passes the order's own fields:
`deletePurchaseOrder(po.id, po.status)` (src/app/purchasing/page.js
line 319). -/
def handleDeletePurchaseOrder (po : PurchaseOrderDoc)
    (pos : List PurchaseOrderDoc) : Except String Unit × List PurchaseOrderDoc :=
  deletePurchaseOrder po.id po.status pos

/-- C10.  Deleting a purchase order succeeds only when its status is
`draft`: a non-draft order is rejected with an error message that names the
order's actual current status and the collection is unchanged; a draft order
is removed; the outcome is success iff the status is `draft`. -/
theorem deletePurchaseOrder_draft_only (po : PurchaseOrderDoc)
    (pos : List PurchaseOrderDoc) :
    (po.status ≠ "draft" →
      handleDeletePurchaseOrder po pos =
        (Except.error ("Purchase order " ++ po.id ++
          " cannot be deleted because its status is \"" ++ po.status ++
          "\". Only draft orders may be deleted."), pos)) ∧
    (po.status = "draft" →
      handleDeletePurchaseOrder po pos =
        (Except.ok (), pos.filter fun p => !decide (p.id = po.id))) ∧
    ((handleDeletePurchaseOrder po pos).1 = Except.ok () ↔ po.status = "draft") := by
  by_cases h : po.status = "draft"
  · refine ⟨fun hne => absurd h hne, fun _ => ?_, ?_⟩
    · simp [handleDeletePurchaseOrder, deletePurchaseOrder, h]
    · simp [handleDeletePurchaseOrder, deletePurchaseOrder, h]
  · refine ⟨fun _ => ?_, fun heq => absurd heq h, ?_⟩
    · simp [handleDeletePurchaseOrder, deletePurchaseOrder, h]
    · simp [handleDeletePurchaseOrder, deletePurchaseOrder, h]

/-- Witness for C10 (spec scenario 6): deleting a `sent` order fails with a
message naming "sent" and deletes nothing; deleting a `draft` order removes
exactly that document. -/
def sentPo : PurchaseOrderDoc := { id := "po1", status := "sent" }

def draftPo : PurchaseOrderDoc := { id := "po2", status := "draft" }

theorem deletePurchaseOrder_draft_only_witness :
    sentPo.status ≠ "draft" ∧
    handleDeletePurchaseOrder sentPo [sentPo, draftPo] =
      (Except.error ("Purchase order po1 cannot be deleted because its status is " ++
        "\"sent\". Only draft orders may be deleted."), [sentPo, draftPo]) ∧
    handleDeletePurchaseOrder draftPo [sentPo, draftPo] =
      (Except.ok (), [sentPo]) := by
  have hne : sentPo.status ≠ "draft" := by simp [sentPo]
  refine ⟨hne, ?_, ?_⟩
  · have h := (deletePurchaseOrder_draft_only sentPo [sentPo, draftPo]).1 hne
    rw [h]
    simp [sentPo]
  · have h := (deletePurchaseOrder_draft_only draftPo [sentPo, draftPo]).2.1
      (by simp [draftPo])
    rw [h]
    simp [sentPo, draftPo]

/-- One ingredient row of a recipe document. -/
structure RecipeIngredient where
  ingredientId : String
  ingredientName : String
  quantity : ℚ
  unit : String
deriving DecidableEq, Repr

/-- A `recipes` document.  `getRecipeById` resolves any recipe by document
id, archived or not. -/
structure RecipeDoc where
  id : String
  name : String
  finishedGoodId : String
  finishedGoodName : String
  yieldQuantity : ℚ
  yieldUnit : String
  ingredients : List RecipeIngredient
  status : String
deriving DecidableEq, Repr

/-- An `ingredients` document as fetched by `getIngredients`. -/
structure IngredientDoc where
  id : String
  currentStock : ℚ
deriving DecidableEq, Repr

/-- The `find(...)?.currentStock ?? 0` lookup used by every sufficiency
check. -/
def lookupStock (ings : List IngredientDoc) (iid : String) : ℚ :=
  match ings.find? (fun i => decide (i.id = iid)) with
  | some i => i.currentStock
  | none => 0

/-- An entry of `insufficientIngredients`. -/
structure InsufficientLine where
  ingredientName : String
  shortfall : ℚ
  unit : String
deriving DecidableEq, Repr

/-- The `ingredientsRequired` snapshot built from a recipe for a batch count
(src/lib/firestore.js lines 633-639). -/
def buildIngredientsRequired (recipe : RecipeDoc) (batches : ℚ) :
    List IngredientLine :=
  recipe.ingredients.map fun ing =>
    { ingredientId := ing.ingredientId
      ingredientName := ing.ingredientName
      quantity := ing.quantity
      unit := ing.unit
      totalRequired := batches * ing.quantity }

/-- The `ingredientsSufficient` flag from the cross-reference of snapshot lines with
current stock (lines 642-652). -/
def ingredientsSufficientOf (ings : List IngredientDoc)
    (req : List IngredientLine) : Bool :=
  req.all fun ing => decide (ing.totalRequired ≤ lookupStock ings ing.ingredientId)

/-- The `insufficientIngredients` list (lines 653-655). -/
def insufficientIngredientsOf (ings : List IngredientDoc)
    (req : List IngredientLine) : List InsufficientLine :=
  (req.filter fun ing =>
      !decide (ing.totalRequired ≤ lookupStock ings ing.ingredientId)).map
    fun ing =>
      { ingredientName := ing.ingredientName
        shortfall := ing.totalRequired - lookupStock ings ing.ingredientId
        unit := ing.unit }

/-- A `demandPlans` document as the conversion reads it.  `none` fields model
JavaScript `undefined` (absorbed by `?? "MTS"`, `?? ""`, `|| ""`). -/
structure DemandPlanDoc where
  id : String
  orderType : Option String
  customerName : Option String
  recipeId : String
  recipeName : String
  finishedGoodId : String
  finishedGoodName : String
  batchesRequired : ℚ
  pickupDateTime : Option String
deriving DecidableEq, Repr

/-- The work-order document staged by `createWorkOrderFromDemandPlan`
(lines 672-697). -/
structure ConvWorkOrder where
  id : String
  demandPlanId : String
  specialOrderId : String
  orderType : String
  customerName : String
  recipeId : String
  recipeName : String
  finishedGoodId : String
  finishedGoodName : String
  batchesOrdered : ℚ
  batchesActual : ℚ
  totalYield : ℚ
  recipeYield : ℚ
  scheduledStart : String
  dueBy : String
  status : String
  ingredientsRequired : List IngredientLine
  ingredientsSufficient : Bool
  insufficientIngredients : List InsufficientLine
  notes : String
  createdBy : String
  startedAt : Option Nat
  completedAt : Option Nat
deriving DecidableEq, Repr

/-- The exact work-order document `createWorkOrderFromDemandPlan` writes for
a resolved recipe. -/
def convWorkOrderOf (plan : DemandPlanDoc) (recipe : RecipeDoc)
    (ings : List IngredientDoc) (currentUserEmail woId : String) : ConvWorkOrder :=
  { id := woId
    demandPlanId := plan.id
    specialOrderId := plan.id
    orderType := plan.orderType.getD "MTS"
    customerName := plan.customerName.getD ""
    recipeId := plan.recipeId
    recipeName := plan.recipeName
    finishedGoodId := plan.finishedGoodId
    finishedGoodName := plan.finishedGoodName
    batchesOrdered := plan.batchesRequired
    batchesActual := plan.batchesRequired
    totalYield := plan.batchesRequired * recipe.yieldQuantity
    recipeYield := recipe.yieldQuantity
    scheduledStart := ""
    dueBy := plan.pickupDateTime.getD ""
    status := "planned"
    ingredientsRequired := buildIngredientsRequired recipe plan.batchesRequired
    ingredientsSufficient :=
      ingredientsSufficientOf ings (buildIngredientsRequired recipe plan.batchesRequired)
    insufficientIngredients :=
      insufficientIngredientsOf ings (buildIngredientsRequired recipe plan.batchesRequired)
    notes := ""
    createdBy := currentUserEmail
    startedAt := none
    completedAt := none }

/-- State touched by demand-plan conversion: the recipe collection (read),
the live ingredient snapshot (read), the `workOrders` collection and the
per-plan status field (written). -/
structure ConvDb where
  recipes : List RecipeDoc
  ingredients : List IngredientDoc
  workOrders : List ConvWorkOrder
  demandPlanStatus : String → String

/-- Model of `createWorkOrderFromDemandPlan` (src/lib/firestore.js lines 616-710):
resolves the plan's recipe by id; if missing, throws the named error before
any write; otherwise one `writeBatch` creates the work order and marks the
plan `fulfilled`.  The pair carries the outcome (the new work order id on
success) and the state afterwards. -/
def createWorkOrderFromDemandPlan (plan : DemandPlanDoc)
    (currentUserEmail woId : String) (db : ConvDb) :
    Except String String × ConvDb :=
  match db.recipes.find? (fun r => decide (r.id = plan.recipeId)) with
  | none =>
      (Except.error ("Recipe \"" ++ plan.recipeId ++
        "\" not found — it may have been archived."), db)
  | some recipe =>
      (Except.ok woId,
        { db with
          workOrders := db.workOrders ++
            [convWorkOrderOf plan recipe db.ingredients currentUserEmail woId]
          demandPlanStatus := fun k =>
            if k = plan.id then "fulfilled" else db.demandPlanStatus k })

/-- C6.  Converting a demand plan is atomic: with a resolvable recipe, the
single batch both appends the staged work order and sets the plan's status
to `fulfilled`; with an unresolvable recipe, the named error identifying the
missing recipe is raised and the state is unchanged.  Consequently (for a
plan not yet fulfilled and with no pre-existing work order claiming it) the
plan ends `fulfilled` iff a work order for it exists. -/
theorem createWorkOrderFromDemandPlan_atomic (plan : DemandPlanDoc)
    (currentUserEmail woId : String) (db : ConvDb)
    (hopen : db.demandPlanStatus plan.id ≠ "fulfilled")
    (hnowo : ∀ w ∈ db.workOrders, w.demandPlanId ≠ plan.id) :
    (db.recipes.find? (fun r => decide (r.id = plan.recipeId)) = none →
      createWorkOrderFromDemandPlan plan currentUserEmail woId db =
        (Except.error ("Recipe \"" ++ plan.recipeId ++
          "\" not found — it may have been archived."), db)) ∧
    (∀ recipe, db.recipes.find? (fun r => decide (r.id = plan.recipeId)) = some recipe →
      (createWorkOrderFromDemandPlan plan currentUserEmail woId db).1 =
        Except.ok woId ∧
      (createWorkOrderFromDemandPlan plan currentUserEmail woId db).2.workOrders =
        db.workOrders ++
          [convWorkOrderOf plan recipe db.ingredients currentUserEmail woId] ∧
      (createWorkOrderFromDemandPlan plan currentUserEmail woId db).2.demandPlanStatus
          plan.id = "fulfilled") ∧
    ((createWorkOrderFromDemandPlan plan currentUserEmail woId db).2.demandPlanStatus
        plan.id = "fulfilled" ↔
      ∃ w ∈ (createWorkOrderFromDemandPlan plan currentUserEmail woId db).2.workOrders,
        w.demandPlanId = plan.id) := by
  rcases hfind : db.recipes.find? (fun r => decide (r.id = plan.recipeId)) with _ | recipe
  · refine ⟨fun _ => ?_, fun recipe hsome => ?_, ?_⟩
    · simp [createWorkOrderFromDemandPlan, hfind]
    · rw [hfind] at hsome
      cases hsome
    · simp only [createWorkOrderFromDemandPlan, hfind]
      constructor
      · intro h
        exact absurd h hopen
      · rintro ⟨w, hw, hwid⟩
        exact absurd hwid (hnowo w hw)
  · refine ⟨fun hnone => ?_, fun recipe2 hsome => ?_, ?_⟩
    · rw [hfind] at hnone
      cases hnone
    · rw [hfind] at hsome
      cases hsome
      refine ⟨?_, ?_, ?_⟩ <;> simp [createWorkOrderFromDemandPlan, hfind]
    · simp only [createWorkOrderFromDemandPlan, hfind]
      constructor
      · intro _
        exact ⟨convWorkOrderOf plan recipe db.ingredients currentUserEmail woId,
          by simp, by simp [convWorkOrderOf]⟩
      · intro _
        simp

/-- Sample data for the C6 witness: plan `dp1` over recipe `r1`; the
conversion appends the staged order and fulfils the plan; against a recipe
collection missing `r1`, it raises the named error and changes nothing. -/
def sampleRecipeDoc : RecipeDoc :=
  { id := "r1"
    name := "Sourdough"
    finishedGoodId := "fg1"
    finishedGoodName := "Sourdough Loaf"
    yieldQuantity := 20
    yieldUnit := "units"
    ingredients :=
      [{ ingredientId := "flour", ingredientName := "Flour", quantity := 5, unit := "lbs" }]
    status := "active" }

def sampleDemandPlan : DemandPlanDoc :=
  { id := "dp1"
    orderType := some "MTO"
    customerName := some "Robin"
    recipeId := "r1"
    recipeName := "Sourdough"
    finishedGoodId := "fg1"
    finishedGoodName := "Sourdough Loaf"
    batchesRequired := 2
    pickupDateTime := some "2026-10-17T09:00" }

def sampleConvDb : ConvDb :=
  { recipes := [sampleRecipeDoc]
    ingredients := [{ id := "flour", currentStock := 50 }]
    workOrders := []
    demandPlanStatus := fun _ => "open" }

def emptyRecipesConvDb : ConvDb :=
  { recipes := []
    ingredients := [{ id := "flour", currentStock := 50 }]
    workOrders := []
    demandPlanStatus := fun _ => "open" }

theorem createWorkOrderFromDemandPlan_atomic_witness :
    (sampleConvDb.demandPlanStatus sampleDemandPlan.id ≠ "fulfilled") ∧
    (createWorkOrderFromDemandPlan sampleDemandPlan "owner@example.com" "wo9"
        sampleConvDb).2.demandPlanStatus "dp1" = "fulfilled" ∧
    (createWorkOrderFromDemandPlan sampleDemandPlan "owner@example.com" "wo9"
        sampleConvDb).2.workOrders =
      [convWorkOrderOf sampleDemandPlan sampleRecipeDoc sampleConvDb.ingredients
        "owner@example.com" "wo9"] ∧
    createWorkOrderFromDemandPlan sampleDemandPlan "owner@example.com" "wo9"
        emptyRecipesConvDb =
      (Except.error ("Recipe \"r1\" not found — it may have been archived."),
        emptyRecipesConvDb) := by
  have hopen : sampleConvDb.demandPlanStatus sampleDemandPlan.id ≠ "fulfilled" := by
    simp [sampleConvDb]
  have hnowo : ∀ w ∈ sampleConvDb.workOrders, w.demandPlanId ≠ sampleDemandPlan.id := by
    simp [sampleConvDb]
  have hfind : sampleConvDb.recipes.find?
      (fun r => decide (r.id = sampleDemandPlan.recipeId)) = some sampleRecipeDoc := by
    simp [sampleConvDb, sampleRecipeDoc, sampleDemandPlan, List.find?]
  have h := createWorkOrderFromDemandPlan_atomic sampleDemandPlan "owner@example.com"
    "wo9" sampleConvDb hopen hnowo
  have hs := h.2.1 sampleRecipeDoc hfind
  refine ⟨hopen, hs.2.2, ?_, ?_⟩
  · rw [hs.2.1]
    simp [sampleConvDb]
  · have hopen2 : emptyRecipesConvDb.demandPlanStatus sampleDemandPlan.id ≠ "fulfilled" := by
      simp [emptyRecipesConvDb]
    have hnowo2 : ∀ w ∈ emptyRecipesConvDb.workOrders,
        w.demandPlanId ≠ sampleDemandPlan.id := by
      simp [emptyRecipesConvDb]
    have h2 := createWorkOrderFromDemandPlan_atomic sampleDemandPlan "owner@example.com"
      "wo9" emptyRecipesConvDb hopen2 hnowo2
    have := h2.1 (by simp [emptyRecipesConvDb])
    simpa [sampleDemandPlan] using this

/-- The user actions the work-orders page can trigger on an existing order. -/
inductive WoAction where
  | start
  | complete
  | cancel
  | edit
deriving DecidableEq, Repr

/-- Which actions `renderActions` offers for a given status
(src/app/work-orders/page.js lines 648-701): nothing for `complete` or
`cancelled`; Start and Cancel only for `planned`; Complete only for
`inProgress`; Edit for any non-terminal status. -/
def actionOffered (status : String) : WoAction → Bool
  | WoAction.start => decide (status = "planned")
  | WoAction.complete => decide (status = "inProgress")
  | WoAction.cancel => decide (status = "planned")
  | WoAction.edit => !(decide (status = "complete") || decide (status = "cancelled"))

/-- The status each handler writes: `handleStart` sets `inProgress`
(line 326), `executeWorkOrder` sets `complete` (line 565), `cancelWorkOrder`
sets `cancelled` (src/lib/firestore.js line 497), `handleEditSubmit` leaves
the status untouched (lines 553-566). -/
def actionNewStatus : WoAction → String → String
  | WoAction.start, _ => "inProgress"
  | WoAction.complete, _ => "complete"
  | WoAction.cancel, _ => "cancelled"
  | WoAction.edit, s => s

/-- One step of the work-order status machine as the system exposes it: a
handler can only run through its rendered button, so the write happens only
when `renderActions` offers the action. -/
def woStep (status : String) (a : WoAction) : String :=
  if actionOffered status a then actionNewStatus a status else status

/-- C8.  The reachable work-order status transitions are exactly
`planned → inProgress → complete` and `planned → cancelled`: terminal states
never change, any change starts from `planned` (to `inProgress` or
`cancelled`) or from `inProgress` (to `complete`), an order becomes
`cancelled` only from `planned` via Cancel, and becomes `complete` only from
`inProgress` via Complete. -/
theorem woStep_transitions (s : String) (a : WoAction) :
    (s = "complete" → woStep s a = s) ∧
    (s = "cancelled" → woStep s a = s) ∧
    (woStep s a ≠ s →
      (s = "planned" ∧ (woStep s a = "inProgress" ∨ woStep s a = "cancelled")) ∨
      (s = "inProgress" ∧ woStep s a = "complete")) ∧
    ((woStep s a = "cancelled" ∧ s ≠ "cancelled") → s = "planned" ∧ a = WoAction.cancel) ∧
    ((woStep s a = "complete" ∧ s ≠ "complete") → s = "inProgress" ∧ a = WoAction.complete) := by
  cases a <;>
    by_cases hp : s = "planned" <;>
      by_cases hi : s = "inProgress" <;>
        by_cases hc : s = "complete" <;>
          by_cases hx : s = "cancelled" <;>
            simp_all [woStep, actionOffered, actionNewStatus]

/-- Witness for C8 at concrete statuses: a completed order ignores Cancel, a
planned order starts, an in-progress order completes, a planned order
cancels, and a cancelled order ignores Start. -/
theorem woStep_transitions_witness :
    woStep "complete" WoAction.cancel = "complete" ∧
    woStep "cancelled" WoAction.start = "cancelled" ∧
    woStep "planned" WoAction.start = "inProgress" ∧
    woStep "inProgress" WoAction.complete = "complete" ∧
    woStep "planned" WoAction.cancel = "cancelled" := by
  refine ⟨(woStep_transitions "complete" WoAction.cancel).1 rfl,
    (woStep_transitions "cancelled" WoAction.start).2.1 rfl, ?_, ?_, ?_⟩ <;>
    simp [woStep, actionOffered, actionNewStatus]

/-- A JavaScript number as the engine's arithmetic produces it: a finite
value (modelled as a rational), a signed infinity, or NaN.  The weekly
generator divides by `recipeYield` with no zero guard, so `Infinity` is
reachable there and must be representable. -/
inductive JsNum where
  | fin (q : ℚ)
  | posInf
  | negInf
  | nan
deriving DecidableEq, Repr

/-- JavaScript division on the values the engine can produce:
`a / 0` is `Infinity`, `-Infinity` or `NaN` by the sign of `a`. -/
def jsDiv : JsNum → JsNum → JsNum
  | JsNum.fin a, JsNum.fin b =>
      if b = 0 then
        (if 0 < a then JsNum.posInf else if a < 0 then JsNum.negInf else JsNum.nan)
      else JsNum.fin (a / b)
  | JsNum.posInf, JsNum.fin b => if 0 ≤ b then JsNum.posInf else JsNum.negInf
  | JsNum.negInf, JsNum.fin b => if 0 ≤ b then JsNum.negInf else JsNum.posInf
  | JsNum.fin _, JsNum.posInf => JsNum.fin 0
  | JsNum.fin _, JsNum.negInf => JsNum.fin 0
  | _, _ => JsNum.nan

/-- JavaScript `Math.ceil`: the identity on infinities and NaN. -/
def jsCeil : JsNum → JsNum
  | JsNum.fin q => JsNum.fin (⌈q⌉ : ℤ)
  | x => x

/-- JavaScript multiplication; `Infinity * 0` is NaN. -/
def jsMul : JsNum → JsNum → JsNum
  | JsNum.fin a, JsNum.fin b => JsNum.fin (a * b)
  | JsNum.posInf, JsNum.fin b =>
      if 0 < b then JsNum.posInf else if b < 0 then JsNum.negInf else JsNum.nan
  | JsNum.fin a, JsNum.posInf =>
      if 0 < a then JsNum.posInf else if a < 0 then JsNum.negInf else JsNum.nan
  | JsNum.negInf, JsNum.fin b =>
      if 0 < b then JsNum.negInf else if b < 0 then JsNum.posInf else JsNum.nan
  | JsNum.fin a, JsNum.negInf =>
      if 0 < a then JsNum.negInf else if a < 0 then JsNum.posInf else JsNum.nan
  | JsNum.posInf, JsNum.posInf => JsNum.posInf
  | JsNum.negInf, JsNum.negInf => JsNum.posInf
  | JsNum.posInf, JsNum.negInf => JsNum.negInf
  | JsNum.negInf, JsNum.posInf => JsNum.negInf
  | _, _ => JsNum.nan

/-- JavaScript subtraction on the values the engine can produce. -/
def jsSub : JsNum → JsNum → JsNum
  | JsNum.fin a, JsNum.fin b => JsNum.fin (a - b)
  | JsNum.posInf, JsNum.fin _ => JsNum.posInf
  | JsNum.negInf, JsNum.fin _ => JsNum.negInf
  | JsNum.fin _, JsNum.posInf => JsNum.negInf
  | JsNum.fin _, JsNum.negInf => JsNum.posInf
  | JsNum.posInf, JsNum.negInf => JsNum.posInf
  | JsNum.negInf, JsNum.posInf => JsNum.negInf
  | _, _ => JsNum.nan

/-- JavaScript `a <= b`; any comparison involving NaN is false. -/
def jsLe : JsNum → JsNum → Bool
  | JsNum.fin x, JsNum.fin y => decide (x ≤ y)
  | JsNum.fin _, JsNum.posInf => true
  | JsNum.fin _, JsNum.negInf => false
  | JsNum.posInf, JsNum.fin _ => false
  | JsNum.negInf, JsNum.fin _ => true
  | JsNum.posInf, JsNum.posInf => true
  | JsNum.negInf, JsNum.negInf => true
  | JsNum.negInf, JsNum.posInf => true
  | _, _ => false

/-- The `batchesRequired` computation on the special-order (MTO) page
(src/unnamed/part_001 lines 72-77):
`!recipeYield ? null : Math.ceil(targetQty / recipeYield)`, where
`recipeYield` is `selectedRecipe?.yieldQuantity ?? null` and the JavaScript
`!recipeYield` is true for both `null` and `0` — both yield `null`. -/
def batchesRequiredMTO (targetQty : ℚ) (recipeYield : Option ℚ) : Option JsNum :=
  match recipeYield with
  | none => none
  | some y =>
      if y = 0 then none
      else some (jsCeil (jsDiv (JsNum.fin targetQty) (JsNum.fin y)))

/-- The `shortfall` computation on the demand-planning (MTS) page
(src/unnamed/part_000 lines 70-72): `max(0, targetQty - currentStock)`,
`0` when no finished good is selected. -/
def mtsShortfall (targetQty : ℚ) (currentStock : Option ℚ) : ℚ :=
  match currentStock with
  | some c => max 0 (targetQty - c)
  | none => 0

/-- The `batchesRequired` computation on the demand-planning (MTS) page
(src/unnamed/part_000 lines 76-80): computed from the shortfall, `null` for
a missing recipe or zero yield, `0` when stock already covers the target. -/
def batchesRequiredMTS (targetQty : ℚ) (currentStock : Option ℚ)
    (recipeYield : Option ℚ) : Option JsNum :=
  match recipeYield with
  | none => none
  | some y =>
      if y = 0 then none
      else if mtsShortfall targetQty currentStock = 0 then some (JsNum.fin 0)
      else some (jsCeil (jsDiv (JsNum.fin (mtsShortfall targetQty currentStock))
        (JsNum.fin y)))

/-- The weekly generator's batch count (src/lib/firestore.js line 1070):
`Math.ceil(qty / item.recipeYield)` — no zero guard. -/
def weeklyBatches (qty recipeYield : ℚ) : JsNum :=
  jsCeil (jsDiv (JsNum.fin qty) (JsNum.fin recipeYield))

/-- C7 counterexample.  On the weekly-generation path the batch count at
`recipeYield = 0` is the JavaScript value `Infinity` — not the undefined/null
"cannot calculate" the claim requires of every computation path — while the
special-order path returns `null` for the same inputs. -/
theorem weeklyBatches_zero_yield_counterexample :
    weeklyBatches 25 0 = JsNum.posInf ∧
    batchesRequiredMTO 25 (some 0) = none := by
  constructor
  · simp [weeklyBatches, jsDiv, jsCeil]
  · simp [batchesRequiredMTO]

/-- C7 as amended.  For positive yield every path computes
`ceil(target / recipeYield)` (the MTS path applying it to the shortfall);
the special-order and demand-planning form paths return `null` for a missing
recipe or a zero yield; but the weekly-generation path has no zero guard and
produces `Infinity` for a positive quantity over a zero yield. -/
theorem batchesRequired_ceil_on_all_paths (t q c y : ℚ) (hy : 0 < y) :
    batchesRequiredMTO t (some y) = some (JsNum.fin (⌈t / y⌉ : ℤ)) ∧
    batchesRequiredMTS t (some c) (some y) =
      some (JsNum.fin (⌈mtsShortfall t (some c) / y⌉ : ℤ)) ∧
    weeklyBatches q y = JsNum.fin (⌈q / y⌉ : ℤ) ∧
    (∀ t2 : ℚ,
      batchesRequiredMTO t2 none = none ∧
      batchesRequiredMTO t2 (some 0) = none ∧
      batchesRequiredMTS t2 (some c) none = none ∧
      batchesRequiredMTS t2 (some c) (some 0) = none) ∧
    (0 < q → weeklyBatches q 0 = JsNum.posInf) := by
  have hy0 : y ≠ 0 := ne_of_gt hy
  refine ⟨?_, ?_, ?_, ?_, ?_⟩
  · simp [batchesRequiredMTO, jsDiv, jsCeil, hy0]
  · by_cases hsf : mtsShortfall t (some c) = 0
    · simp [batchesRequiredMTS, hy0, hsf]
    · simp [batchesRequiredMTS, jsDiv, jsCeil, hy0, hsf]
  · simp [weeklyBatches, jsDiv, jsCeil, hy0]
  · intro t2
    refine ⟨rfl, by simp [batchesRequiredMTO], rfl, by simp [batchesRequiredMTS]⟩
  · intro hq
    simp [weeklyBatches, jsDiv, jsCeil, hq]

/-- Witness for the C7 theorem at the spec's own example (scenario 2):
target 25, yield 20 gives 2 batches on the MTO path, and the MTS path on
scenario 1 (target 45, stock 5, yield 20) also gives 2. -/
theorem batchesRequired_ceil_on_all_paths_witness :
    (0 : ℚ) < 20 ∧
    batchesRequiredMTO 25 (some 20) = some (JsNum.fin 2) ∧
    batchesRequiredMTS 45 (some 5) (some 20) = some (JsNum.fin 2) ∧
    weeklyBatches 25 20 = JsNum.fin 2 := by
  have h20 : (0 : ℚ) < 20 := by norm_num
  have h := batchesRequired_ceil_on_all_paths 25 25 5 20 h20
  have hmts := batchesRequired_ceil_on_all_paths 45 25 5 20 h20
  have hceil : (⌈(25 : ℚ) / 20⌉ : ℤ) = 2 := by
    rw [Int.ceil_eq_iff]
    constructor <;> norm_num
  have hceil40 : (⌈(40 : ℚ) / 20⌉ : ℤ) = 2 := by
    rw [Int.ceil_eq_iff]
    constructor <;> norm_num
  refine ⟨h20, ?_, ?_, ?_⟩
  · rw [h.1, hceil]
    norm_num
  · rw [hmts.2.1]
    rw [show mtsShortfall 45 (some 5) = 40 by norm_num [mtsShortfall]]
    rw [hceil40]
    norm_num
  · rw [h.2.2.1, hceil]
    norm_num

/-- The day keys the weekly generator iterates, in order
(src/lib/firestore.js lines 1035-1038). -/
def DAYS_ORDER : List String :=
  ["monday", "tuesday", "wednesday", "thursday", "friday", "saturday", "sunday"]

/-- One item of a weekly plan: the template row snapshot
(src/unnamed/part_004 lines 309-316), with the seven day quantities already
parsed to numbers (`parseWeekQty`). -/
structure WeeklyPlanItem where
  finishedGoodId : String
  finishedGoodName : String
  recipeId : String
  recipeName : String
  recipeYield : ℚ
  quantities : List ℚ
deriving DecidableEq, Repr

/-- The `planData` argument the weekly page passes to the generator. -/
structure WeeklyPlanInput where
  weekStartDate : String
  weekLabel : String
  items : List WeeklyPlanItem
deriving DecidableEq, Repr

/-- A `weeklyPlans` document. -/
structure WeeklyPlanDoc where
  weekStartDate : String
  weekLabel : String
  status : String
  items : List WeeklyPlanItem
  workOrdersGenerated : Nat
  createdBy : String
deriving DecidableEq, Repr

/-- An ingredient snapshot line staged by the weekly generator
(lines 1081-1087).  The batch count has no zero-yield guard, so
`totalRequired = batches * ing.quantity` is a JavaScript number. -/
structure GenIngredientLine where
  ingredientId : String
  ingredientName : String
  unit : String
  quantity : ℚ
  totalRequired : JsNum
deriving DecidableEq, Repr

/-- An `insufficientIngredients` entry staged by the weekly generator. -/
structure GenShortLine where
  ingredientName : String
  shortfall : JsNum
  unit : String
deriving DecidableEq, Repr

/-- A work order staged by the weekly generator (lines 1100-1127).
`scheduledStart`/`dueBy` — the calendar date of the day plus the fixed times
06:00 and 10:00 — are omitted: they are date formatting of the Monday anchor
plus `planDay`, carried here by the day key itself. -/
structure GenWorkOrder where
  weeklyPlanId : String
  planDay : String
  orderType : String
  customerName : String
  specialOrderId : String
  recipeId : String
  recipeName : String
  finishedGoodId : String
  finishedGoodName : String
  batchesOrdered : JsNum
  batchesActual : JsNum
  recipeYield : ℚ
  totalYield : ℚ
  status : String
  ingredientsRequired : List GenIngredientLine
  ingredientsSufficient : Bool
  insufficientIngredients : List GenShortLine
  createdBy : String
deriving DecidableEq, Repr

/-- The work order the generator stages for one product × day cell
(src/lib/firestore.js lines 1070-1127): `batches = Math.ceil(qty / yield)`,
`batchesOrdered = batchesActual = batches`, and — unlike every other
creation path — `totalYield` is set to the raw day quantity `qty`. -/
def genWorkOrderFor (planId : String) (ings : List IngredientDoc)
    (createdBy : String) (item : WeeklyPlanItem) (recipe : RecipeDoc)
    (i : Nat) (qty : ℚ) : GenWorkOrder :=
  let batches := weeklyBatches qty item.recipeYield
  let ingredientsRequired : List GenIngredientLine := recipe.ingredients.map fun ing =>
    { ingredientId := ing.ingredientId
      ingredientName := ing.ingredientName
      unit := ing.unit
      quantity := ing.quantity
      totalRequired := jsMul batches (JsNum.fin ing.quantity) }
  { weeklyPlanId := planId
    planDay := DAYS_ORDER.getD i ""
    orderType := "MTS"
    customerName := ""
    specialOrderId := ""
    recipeId := item.recipeId
    recipeName := item.recipeName
    finishedGoodId := item.finishedGoodId
    finishedGoodName := item.finishedGoodName
    batchesOrdered := batches
    batchesActual := batches
    recipeYield := item.recipeYield
    totalYield := qty
    status := "planned"
    ingredientsRequired := ingredientsRequired
    ingredientsSufficient := ingredientsRequired.all fun ing =>
      jsLe ing.totalRequired (JsNum.fin (lookupStock ings ing.ingredientId))
    insufficientIngredients :=
      (ingredientsRequired.filter fun ing =>
          !jsLe ing.totalRequired (JsNum.fin (lookupStock ings ing.ingredientId))).map
        fun ing =>
          { ingredientName := ing.ingredientName
            shortfall := jsSub ing.totalRequired
              (JsNum.fin (lookupStock ings ing.ingredientId))
            unit := ing.unit }
    createdBy := createdBy }

/-- The full list of work orders the weekly batch stages (lines 1061-1131):
items whose recipe no longer resolves are skipped, as are days with
quantity 0. -/
def stageWorkOrdersFor (planId : String) (recipes : List RecipeDoc)
    (ings : List IngredientDoc) (createdBy : String) (plan : WeeklyPlanInput) :
    List GenWorkOrder :=
  plan.items.flatMap fun item =>
    match recipes.find? (fun r => decide (r.id = item.recipeId)) with
    | none => []
    | some recipe =>
        (List.range 7).filterMap fun i =>
          let qty := item.quantities.getD i 0
          if qty = 0 then none
          else some (genWorkOrderFor planId ings createdBy item recipe i qty)

/-- The plan document as first written by the standalone `addDoc`
(lines 1041-1049): status `draft`, zero count. -/
def weeklyPlanDraftDoc (plan : WeeklyPlanInput) (createdBy : String) :
    WeeklyPlanDoc :=
  { weekStartDate := plan.weekStartDate
    weekLabel := plan.weekLabel
    status := "draft"
    items := plan.items
    workOrdersGenerated := 0
    createdBy := createdBy }

/-- State touched by weekly generation: the `weeklyPlans` collection (id ×
document) and the `workOrders` collection. -/
structure WeekDb where
  weeklyPlans : List (String × WeeklyPlanDoc)
  workOrders : List GenWorkOrder
deriving DecidableEq, Repr

/-- Model of `generateWorkOrdersForWeek` (src/lib/firestore.js lines 1029-1142).
Step 1 `addDoc`s the weeklyPlan — its own write request, issued and
completed before the batch exists, so it persists regardless of the batch's
fate.  Steps 2-4 are the atomic batch: all staged work orders plus the
update stamping the plan with the final count and `generated` status;
`commitSucceeds` models whether the store accepts that batch. -/
def generateWorkOrdersForWeek (plan : WeeklyPlanInput) (recipes : List RecipeDoc)
    (ings : List IngredientDoc) (currentUserEmail planId : String)
    (commitSucceeds : Bool) (db : WeekDb) : WeekDb :=
  let db1 : WeekDb :=
    { db with weeklyPlans :=
        db.weeklyPlans ++ [(planId, weeklyPlanDraftDoc plan currentUserEmail)] }
  let staged := stageWorkOrdersFor planId recipes ings currentUserEmail plan
  if commitSucceeds then
    { weeklyPlans := db1.weeklyPlans.map fun p =>
        if p.1 = planId then
          (p.1, { p.2 with workOrdersGenerated := staged.length, status := "generated" })
        else p
      workOrders := db1.workOrders ++ staged }
  else db1

/-- Weekly sample data: one product, recipe yield 20, Monday quantity 25 —
the spec's rounding example (scenario 2) on the weekly path. -/
def weeklyRecipe : RecipeDoc :=
  { id := "r1"
    name := "Sourdough"
    finishedGoodId := "fg1"
    finishedGoodName := "Sourdough Loaf"
    yieldQuantity := 20
    yieldUnit := "units"
    ingredients :=
      [{ ingredientId := "flour", ingredientName := "Flour", quantity := 5, unit := "lbs" }]
    status := "active" }

def weeklyItemMonday25 : WeeklyPlanItem :=
  { finishedGoodId := "fg1"
    finishedGoodName := "Sourdough Loaf"
    recipeId := "r1"
    recipeName := "Sourdough"
    recipeYield := 20
    quantities := [25, 0, 0, 0, 0, 0, 0] }

def weeklyPlanMonday25 : WeeklyPlanInput :=
  { weekStartDate := "2026-10-12"
    weekLabel := "Week of Oct 12"
    items := [weeklyItemMonday25] }

def weeklyIngredients : List IngredientDoc := [{ id := "flour", currentStock := 50 }]

def emptyWeekDb : WeekDb := { weeklyPlans := [], workOrders := [] }

/-- C3 counterexample.  The WeeklyPlan document is written by a standalone
`addDoc` before the batch, so a failed batch commit leaves the plan record
behind with zero work orders: on a week staging one work order, the failure
case ends with the plan record present and no work orders — refuting
"either every one of the week's work orders and the plan record exist
together, or none of them exist". -/
theorem generateWeek_leaves_plan_behind_counterexample :
    (generateWorkOrdersForWeek weeklyPlanMonday25 [weeklyRecipe] weeklyIngredients
        "owner@example.com" "plan1" false emptyWeekDb).weeklyPlans =
      [("plan1", weeklyPlanDraftDoc weeklyPlanMonday25 "owner@example.com")] ∧
    (generateWorkOrdersForWeek weeklyPlanMonday25 [weeklyRecipe] weeklyIngredients
        "owner@example.com" "plan1" false emptyWeekDb).workOrders = [] ∧
    (stageWorkOrdersFor "plan1" [weeklyRecipe] weeklyIngredients "owner@example.com"
        weeklyPlanMonday25).length = 1 ∧
    ¬ (((generateWorkOrdersForWeek weeklyPlanMonday25 [weeklyRecipe] weeklyIngredients
          "owner@example.com" "plan1" false emptyWeekDb).weeklyPlans ≠ [] ∧
        (generateWorkOrdersForWeek weeklyPlanMonday25 [weeklyRecipe] weeklyIngredients
          "owner@example.com" "plan1" false emptyWeekDb).workOrders.length =
          (stageWorkOrdersFor "plan1" [weeklyRecipe] weeklyIngredients
            "owner@example.com" weeklyPlanMonday25).length) ∨
       ((generateWorkOrdersForWeek weeklyPlanMonday25 [weeklyRecipe] weeklyIngredients
          "owner@example.com" "plan1" false emptyWeekDb).weeklyPlans = [] ∧
        (generateWorkOrdersForWeek weeklyPlanMonday25 [weeklyRecipe] weeklyIngredients
          "owner@example.com" "plan1" false emptyWeekDb).workOrders = [])) := by
  have hplans : (generateWorkOrdersForWeek weeklyPlanMonday25 [weeklyRecipe]
      weeklyIngredients "owner@example.com" "plan1" false emptyWeekDb).weeklyPlans =
      [("plan1", weeklyPlanDraftDoc weeklyPlanMonday25 "owner@example.com")] := by
    simp [generateWorkOrdersForWeek, emptyWeekDb]
  have hwos : (generateWorkOrdersForWeek weeklyPlanMonday25 [weeklyRecipe]
      weeklyIngredients "owner@example.com" "plan1" false emptyWeekDb).workOrders = [] := by
    simp [generateWorkOrdersForWeek, emptyWeekDb]
  have hstaged : (stageWorkOrdersFor "plan1" [weeklyRecipe] weeklyIngredients
      "owner@example.com" weeklyPlanMonday25).length = 1 := by
    simp [stageWorkOrdersFor, weeklyPlanMonday25, weeklyItemMonday25, weeklyRecipe,
      List.range_succ]
  refine ⟨hplans, hwos, hstaged, ?_⟩
  rintro (⟨_, hlen⟩ | ⟨hnil, _⟩)
  · rw [hwos, hstaged] at hlen
    simp at hlen
  · rw [hplans] at hnil
    simp at hnil

/-- C3 as amended.  The batch itself is atomic: on failure no work order is
written and the plan record — created beforehand by its own `addDoc` —
remains in `draft` status with a zero count; on success all staged work
orders are appended and the same plan record carries status `generated` and
the staged count.  What fails is the claim's stronger "plan record and work
orders exist together or not at all". -/
theorem generateWeek_batch_atomic (plan : WeeklyPlanInput)
    (recipes : List RecipeDoc) (ings : List IngredientDoc)
    (email planId : String) (db : WeekDb)
    (hfresh : ∀ p ∈ db.weeklyPlans, p.1 ≠ planId) :
    (generateWorkOrdersForWeek plan recipes ings email planId false db).weeklyPlans =
      db.weeklyPlans ++ [(planId, weeklyPlanDraftDoc plan email)] ∧
    (generateWorkOrdersForWeek plan recipes ings email planId false db).workOrders =
      db.workOrders ∧
    (generateWorkOrdersForWeek plan recipes ings email planId true db).weeklyPlans =
      db.weeklyPlans ++
        [(planId,
          { weeklyPlanDraftDoc plan email with
            workOrdersGenerated :=
              (stageWorkOrdersFor planId recipes ings email plan).length
            status := "generated" })] ∧
    (generateWorkOrdersForWeek plan recipes ings email planId true db).workOrders =
      db.workOrders ++ stageWorkOrdersFor planId recipes ings email plan := by
  have hmap : db.weeklyPlans.map (fun p =>
      if p.1 = planId then
        (p.1, { p.2 with
          workOrdersGenerated := (stageWorkOrdersFor planId recipes ings email plan).length
          status := "generated" })
      else p) = db.weeklyPlans := by
    conv_rhs => rw [← List.map_id db.weeklyPlans]
    apply List.map_congr_left
    intro p hp
    simp [hfresh p hp]
  refine ⟨?_, ?_, ?_, ?_⟩
  · simp [generateWorkOrdersForWeek]
  · simp [generateWorkOrdersForWeek]
  · simp only [generateWorkOrdersForWeek, if_true, List.map_append]
    rw [hmap]
    simp
  · simp [generateWorkOrdersForWeek]

theorem generateWeek_batch_atomic_witness :
    (∀ p ∈ emptyWeekDb.weeklyPlans, p.1 ≠ "plan1") ∧
    (generateWorkOrdersForWeek weeklyPlanMonday25 [weeklyRecipe] weeklyIngredients
        "owner@example.com" "plan1" true emptyWeekDb).workOrders =
      stageWorkOrdersFor "plan1" [weeklyRecipe] weeklyIngredients "owner@example.com"
        weeklyPlanMonday25 ∧
    (generateWorkOrdersForWeek weeklyPlanMonday25 [weeklyRecipe] weeklyIngredients
        "owner@example.com" "plan1" true emptyWeekDb).weeklyPlans.map
      (fun p => (p.1, p.2.status, p.2.workOrdersGenerated)) =
      [("plan1", "generated", 1)] := by
  have hfresh : ∀ p ∈ emptyWeekDb.weeklyPlans, p.1 ≠ "plan1" := by
    simp [emptyWeekDb]
  have h := generateWeek_batch_atomic weeklyPlanMonday25 [weeklyRecipe]
    weeklyIngredients "owner@example.com" "plan1" emptyWeekDb hfresh
  have hstaged : (stageWorkOrdersFor "plan1" [weeklyRecipe] weeklyIngredients
      "owner@example.com" weeklyPlanMonday25).length = 1 := by
    simp [stageWorkOrdersFor, weeklyPlanMonday25, weeklyItemMonday25, weeklyRecipe,
      List.range_succ]
  refine ⟨hfresh, ?_, ?_⟩
  · rw [h.2.2.2]
    simp [emptyWeekDb]
  · rw [h.2.2.1]
    simp [emptyWeekDb, hstaged]

/-- C4.  On the weekly-generation path `totalYield` is set to the raw day
quantity, not `batchesActual × recipeYield`: for recipe yield 20 and planned
quantity 25 the staged order carries `batchesActual = 2` but
`totalYield = 25`, where `2 × 20 = 40` — the invariant the spec states (and
every other creation/edit path maintains, e.g. demand-plan conversion, whose
staged order always satisfies it, as the last conjunct shows) fails here. -/
theorem weeklyGen_totalYield_is_raw_quantity :
    (stageWorkOrdersFor "plan1" [weeklyRecipe] weeklyIngredients "owner@example.com"
        weeklyPlanMonday25).map
      (fun wo => (wo.totalYield, wo.batchesActual, wo.recipeYield)) =
      [(25, JsNum.fin 2, 20)] ∧
    jsMul (JsNum.fin 2) (JsNum.fin 20) = JsNum.fin 40 ∧
    JsNum.fin (25 : ℚ) ≠ JsNum.fin (40 : ℚ) ∧
    (∀ (plan : DemandPlanDoc) (recipe : RecipeDoc) (ings : List IngredientDoc)
      (email woId : String),
      (convWorkOrderOf plan recipe ings email woId).totalYield =
        (convWorkOrderOf plan recipe ings email woId).batchesActual *
          (convWorkOrderOf plan recipe ings email woId).recipeYield) := by
  have hceil : (⌈(25 : ℚ) / 20⌉ : ℤ) = 2 := by
    rw [Int.ceil_eq_iff]
    constructor <;> norm_num
  refine ⟨?_, ?_, ?_, ?_⟩
  · simp [stageWorkOrdersFor, genWorkOrderFor, weeklyPlanMonday25, weeklyItemMonday25,
      weeklyRecipe, weeklyBatches, jsDiv, jsCeil, List.range_succ, hceil]
  · simp [jsMul]
    norm_num
  · simp
  · intro plan recipe ings email woId
    rfl

end Bakery
